import Mathlib

/-!
Verification of the personaplex-voice-bot bridging core.

The definitions below are shallow embeddings of the TypeScript sources:

* `src/audio/converter.ts` (mu-law codec: `MULAW_DECODE_TABLE`,
  `encodeMulawSample`, `mulawToPcm`),
* `src/audio/buffer.ts` (`AudioBuffer`),
* `src/audio/resampler.ts` (`resample`, `LinearResampler`),
* `src/personaplex/protocol.ts` (`decodeMessage`, `encodeAudioMessage`),
* `src/personaplex/client.ts` (`PersonaPlexClient` lifecycle),
* `src/voice-bot.ts` (`VoiceBot.endSession`),
* `src/twilio/media-streams.ts` (`TwilioMediaHandler`).

Numbers held in JS `number` variables are modelled as `Nat`/`Int` where the
source only ever stores integers in them, and as `ℚ` (exact arithmetic) where
the source computes with fractional values.  Sample values travelling through
the buffer are modelled polymorphically, since the buffer never inspects them.
-/

namespace VoiceBot

/-! ## Mu-law codec (`src/audio/converter.ts`) -/

/-- `MULAW_BIAS` from `converter.ts`. -/
def MULAW_BIAS : Nat := 0x84

/-- `MULAW_MAX` from `converter.ts`. -/
def MULAW_MAX : Nat := 32635

/-- The 256-entry `MULAW_DECODE_TABLE` (`Int16Array`) from `converter.ts`,
verbatim. -/
def MULAW_DECODE_TABLE : List Int := [
  -32124, -31100, -30076, -29052, -28028, -27004, -25980, -24956,
  -23932, -22908, -21884, -20860, -19836, -18812, -17788, -16764,
  -15996, -15484, -14972, -14460, -13948, -13436, -12924, -12412,
  -11900, -11388, -10876, -10364,  -9852,  -9340,  -8828,  -8316,
   -7932,  -7676,  -7420,  -7164,  -6908,  -6652,  -6396,  -6140,
   -5884,  -5628,  -5372,  -5116,  -4860,  -4604,  -4348,  -4092,
   -3900,  -3772,  -3644,  -3516,  -3388,  -3260,  -3132,  -3004,
   -2876,  -2748,  -2620,  -2492,  -2364,  -2236,  -2108,  -1980,
   -1884,  -1820,  -1756,  -1692,  -1628,  -1564,  -1500,  -1436,
   -1372,  -1308,  -1244,  -1180,  -1116,  -1052,   -988,   -924,
    -876,   -844,   -812,   -780,   -748,   -716,   -684,   -652,
    -620,   -588,   -556,   -524,   -492,   -460,   -428,   -396,
    -372,   -356,   -340,   -324,   -308,   -292,   -276,   -260,
    -244,   -228,   -212,   -196,   -180,   -164,   -148,   -132,
    -120,   -112,   -104,    -96,    -88,    -80,    -72,    -64,
     -56,    -48,    -40,    -32,    -24,    -16,     -8,      0,
   32124,  31100,  30076,  29052,  28028,  27004,  25980,  24956,
   23932,  22908,  21884,  20860,  19836,  18812,  17788,  16764,
   15996,  15484,  14972,  14460,  13948,  13436,  12924,  12412,
   11900,  11388,  10876,  10364,   9852,   9340,   8828,   8316,
    7932,   7676,   7420,   7164,   6908,   6652,   6396,   6140,
    5884,   5628,   5372,   5116,   4860,   4604,   4348,   4092,
    3900,   3772,   3644,   3516,   3388,   3260,   3132,   3004,
    2876,   2748,   2620,   2492,   2364,   2236,   2108,   1980,
    1884,   1820,   1756,   1692,   1628,   1564,   1500,   1436,
    1372,   1308,   1244,   1180,   1116,   1052,    988,    924,
     876,    844,    812,    780,    748,    716,    684,    652,
     620,    588,    556,    524,    492,    460,    428,    396,
     372,    356,    340,    324,    308,    292,    276,    260,
     244,    228,    212,    196,    180,    164,    148,    132,
     120,    112,    104,     96,     88,     80,     72,     64,
      56,     48,     40,     32,     24,     16,      8,      0]

/-- The segment-search loop of `encodeMulawSample`:
`let exponent = 7; let mask = 0x4000; while ((pcm & mask) === 0 && exponent > 0)
{ exponent--; mask >>= 1; }`.  `findExponent pcm 7` is the value of `exponent`
on loop exit (the fuel argument is the current `exponent`; the mask tested for
`exponent = n+1` is `0x4000 >> (7-(n+1)) = 1 <<< (n+8)`). -/
def findExponent (pcm : Nat) : Nat → Nat
  | 0 => 0
  | n + 1 => if pcm &&& (1 <<< (n + 8)) = 0 then findExponent pcm n else n + 1

/-- `encodeMulawSample` from `converter.ts`, applied to the quantized 16-bit
PCM value `pcm` (the source first computes `pcm = Math.round(clamped * 32767)`
from a float in [-1,1]; here the claim quantifies directly over 16-bit PCM).
`~x & 0xFF` on the 8-bit value `x` is `x ^^^ 0xFF`. -/
def encodeMulawSample (pcm : Int) : Nat :=
  let sign : Nat := if pcm < 0 then 0x80 else 0x00
  let magnitude : Nat := pcm.natAbs
  let biased : Nat := min (magnitude + MULAW_BIAS) MULAW_MAX
  let exponent : Nat := findExponent biased 7
  let mantissa : Nat := (biased >>> (exponent + 3)) &&& 0x0F
  (sign ||| (exponent <<< 4) ||| mantissa) ^^^ 0xFF

/-- The table lookup `MULAW_DECODE_TABLE[b]` performed per byte by
`mulawToPcm` (before the `/ 32768` normalization). -/
def mulawDecodeInt (b : Nat) : Int :=
  MULAW_DECODE_TABLE.getD b 0

/-- `mulawToPcm` from `converter.ts`: per-byte table lookup, normalized to
[-1,1] by `/ 32768` (exact in float64 for these integer numerators). -/
def mulawToPcm (mulaw : List Nat) : List ℚ :=
  mulaw.map (fun b => (mulawDecodeInt b : ℚ) / 32768)

/-- The mu-law quantization step width of the segment `x` falls in: segment
`e` (as computed by the encoder's segment search) quantizes in steps of
`2^(e+3)`. -/
def mulawStep (x : Int) : Nat :=
  2 ^ (findExponent (min (x.natAbs + MULAW_BIAS) MULAW_MAX) 7 + 3)

/-- Closed form for the decode table: byte `b` complements to
`u = sign | exponent<<4 | mantissa`; the table entry is
`±((2·mantissa + 33)·2^(exponent+2) − 132)`.  Used only as a proof bridge;
`mulawDecodeInt` (the verbatim table) is the source-of-truth definition. -/
def mulawDecodeFormula (b : Nat) : Int :=
  let u := b ^^^ 0xFF
  let e := (u >>> 4) &&& 7
  let m := u &&& 0x0F
  let mag : Int := (2 * (m : Int) + 33) * 2 ^ (e + 2) - 132
  if 128 ≤ u then -mag else mag

/-! ### Mu-law codec lemmas -/

theorem findExponent_le (b : Nat) : ∀ n, findExponent b n ≤ n := by
  intro n
  induction n with
  | zero => simp [findExponent]
  | succ k ih =>
    rw [findExponent]
    split
    · exact Nat.le_succ_of_le ih
    · exact Nat.le_refl _

/-- The segment search finds the exponent `e` with `2^(e+7) ≤ b < 2^(e+8)`,
for `b` at least 128 and below `2^(n+8)`. -/
theorem findExponent_bounds : ∀ (n : Nat) (b : Nat), 2 ^ 7 ≤ b → b < 2 ^ (n + 8) →
    2 ^ (findExponent b n + 7) ≤ b ∧ b < 2 ^ (findExponent b n + 8) := by
  intro n
  induction n with
  | zero => intro b h1 h2; exact ⟨h1, h2⟩
  | succ k ih =>
    intro b h1 h2
    have hshift : (1 : Nat) <<< (k + 8) = 2 ^ (k + 8) := by
      rw [Nat.shiftLeft_eq, one_mul]
    have hpos : 0 < 2 ^ (k + 8) := Nat.pos_pow_of_pos _ (by norm_num)
    rw [findExponent, hshift]
    split
    · rename_i hzero
      -- bit k+8 is clear, so b < 2^(k+8); recurse
      have htbf : b.testBit (k + 8) = false := by
        cases h : b.testBit (k + 8)
        · rfl
        · exfalso
          rw [Nat.and_two_pow, h] at hzero
          simp at hzero
      have hlt : b < 2 ^ (k + 8) := by
        apply Nat.lt_pow_two_of_testBit
        intro i hi
        rcases Nat.eq_or_lt_of_le hi with heq | hgt
        · rw [← heq]; exact htbf
        · apply Nat.testBit_lt_two_pow
          calc b < 2 ^ (k + 1 + 8) := h2
          _ ≤ 2 ^ i := Nat.pow_le_pow_right (by norm_num) (by omega)
      exact ih b h1 hlt
    · rename_i hnz
      -- bit k+8 is set, so 2^(k+8) ≤ b
      have htbt : b.testBit (k + 8) = true := by
        cases h : b.testBit (k + 8)
        · exfalso
          rw [Nat.and_two_pow, h] at hnz
          simp at hnz
        · rfl
      have hge : 2 ^ (k + 8) ≤ b := Nat.testBit_implies_ge htbt
      constructor
      · have hidx : k + 1 + 7 = k + 8 := by omega
        rw [hidx]; exact hge
      · exact h2

set_option maxRecDepth 4000 in
/-- The decode table agrees with the closed companding formula on every byte. -/
theorem mulawTable_eq_formula : ∀ b : Fin 256, mulawDecodeInt b.val = mulawDecodeFormula b.val := by
  decide

theorem encodeMulawSample_lt (x : Int) : encodeMulawSample x < 256 := by
  show encodeMulawSample x < 2 ^ 8
  unfold encodeMulawSample
  apply Nat.xor_lt_two_pow
  · apply Nat.or_lt_two_pow
    · apply Nat.or_lt_two_pow
      · split <;> norm_num
      · have h := findExponent_le (min (x.natAbs + MULAW_BIAS) MULAW_MAX) 7
        rw [Nat.shiftLeft_eq]
        have h2 : findExponent (min (x.natAbs + MULAW_BIAS) MULAW_MAX) 7 * 2 ^ 4 ≤ 7 * 2 ^ 4 :=
          Nat.mul_le_mul_right _ h
        omega
    · have h3 : (min (x.natAbs + MULAW_BIAS) MULAW_MAX >>>
          (findExponent (min (x.natAbs + MULAW_BIAS) MULAW_MAX) 7 + 3)) &&& 0x0F ≤ 0x0F :=
        Nat.and_le_right
      omega
  · norm_num

/-- Evaluating the decode formula at an assembled 8-bit code
`(s + 16·e + m) ^ 0xFF` recovers sign, exponent and mantissa. -/
theorem mulawDecodeFormula_eval (s e m : Nat) (hs : s = 0 ∨ s = 128)
    (he : e ≤ 7) (hm : m ≤ 15) :
    mulawDecodeFormula ((s + 16 * e + m) ^^^ 0xFF) =
      (if s = 128 then (-1 : Int) else 1) * ((2 * (m : Int) + 33) * 2 ^ (e + 2) - 132) := by
  have hxor : ((s + 16 * e + m) ^^^ 0xFF) ^^^ 0xFF = s + 16 * e + m := by
    rw [Nat.xor_assoc, Nat.xor_self, Nat.xor_zero]
  have h7 : (7 : Nat) = 2 ^ 3 - 1 := by norm_num
  have h15 : (0x0F : Nat) = 2 ^ 4 - 1 := by norm_num
  have hp3 : (2 : Nat) ^ 3 = 8 := by norm_num
  have hp4 : (2 : Nat) ^ 4 = 16 := by norm_num
  have hdiv : (s + 16 * e + m) >>> 4 &&& 7 = e := by
    rw [Nat.shiftRight_eq_div_pow, h7, Nat.and_pow_two_sub_one_eq_mod, hp3, hp4]
    rcases hs with rfl | rfl <;> omega
  have hmod : (s + 16 * e + m) &&& 0x0F = m := by
    rw [h15, Nat.and_pow_two_sub_one_eq_mod, hp4]
    rcases hs with rfl | rfl <;> omega
  simp only [mulawDecodeFormula, hxor, hdiv, hmod]
  rcases hs with rfl | rfl
  · rw [if_neg (by omega), if_neg (by norm_num), one_mul]
  · rw [if_pos (by omega), if_pos rfl, neg_one_mul]

/-- The mu-law quantizer with midpoint decode is within one step of the
identity on magnitudes: with `b = min (mag+132) 32635` (bias and clip) and
`S = 2^(e+3)` the step of `mag`'s segment,
`|((b/S)·S + S/2 − 132) − mag| ≤ S`. -/
theorem mulaw_mag_bound (mag : Nat) (hmag : mag ≤ 32768) :
    (((min (mag + 132) 32635 / 2 ^ (findExponent (min (mag + 132) 32635) 7 + 3) *
        2 ^ (findExponent (min (mag + 132) 32635) 7 + 3) +
        2 ^ (findExponent (min (mag + 132) 32635) 7 + 2) : Nat) : Int) - 132 - (mag : Int)).natAbs
      ≤ 2 ^ (findExponent (min (mag + 132) 32635) 7 + 3) := by
  by_cases hclip : mag + 132 ≤ 32635
  · -- no clipping: biased value is `mag + 132`
    have hbias : min (mag + 132) 32635 = mag + 132 := min_eq_left hclip
    rw [hbias]
    have hpos : 0 < 2 ^ (findExponent (mag + 132) 7 + 3) :=
      Nat.pos_pow_of_pos _ (by norm_num)
    have hdm := Nat.div_add_mod (mag + 132) (2 ^ (findExponent (mag + 132) 7 + 3))
    have hr : (mag + 132) % 2 ^ (findExponent (mag + 132) 7 + 3) <
        2 ^ (findExponent (mag + 132) 7 + 3) := Nat.mod_lt _ hpos
    have hNS : (mag + 132) / 2 ^ (findExponent (mag + 132) 7 + 3) *
        2 ^ (findExponent (mag + 132) 7 + 3) =
        mag + 132 - (mag + 132) % 2 ^ (findExponent (mag + 132) 7 + 3) := by
      rw [Nat.mul_comm]; omega
    rw [hNS]
    have hS2 : (2 : Nat) ^ (findExponent (mag + 132) 7 + 3) =
        2 * 2 ^ (findExponent (mag + 132) 7 + 2) := by ring
    omega
  · -- clipping: biased value is 32635, segment 7, decoded magnitude 32124
    have hbias : min (mag + 132) 32635 = 32635 := min_eq_right (by omega)
    rw [hbias]
    have he : findExponent 32635 7 = 7 := by decide
    rw [he]
    have h1024 : (2 : Nat) ^ (7 + 3) = 1024 := by norm_num
    have h512 : (2 : Nat) ^ (7 + 2) = 512 := by norm_num
    rw [h1024, h512]
    omega

/-- `decode ∘ encode` through the closed formula is within one step. -/
theorem mulaw_formula_roundtrip (x : Int) (hlo : -32768 ≤ x) (hhi : x ≤ 32767) :
    (mulawDecodeFormula (encodeMulawSample x) - x).natAbs ≤ mulawStep x := by
  have hBIAS : MULAW_BIAS = 132 := rfl
  have hMAX : MULAW_MAX = 32635 := rfl
  have hmag : x.natAbs ≤ 32768 := by omega
  have hb1 : 132 ≤ min (x.natAbs + 132) 32635 := by omega
  have hb2 : min (x.natAbs + 132) 32635 ≤ 32635 := by omega
  set b := min (x.natAbs + 132) 32635 with hbdef
  set e := findExponent b 7 with hedef
  have he7 : e ≤ 7 := findExponent_le b 7
  obtain ⟨hlow, hhigh⟩ := findExponent_bounds 7 b (by norm_num; omega) (by norm_num; omega)
  rw [← hedef] at hlow hhigh
  have hq16 : 16 ≤ b / 2 ^ (e + 3) := by
    apply (Nat.le_div_iff_mul_le (Nat.pos_pow_of_pos _ (by norm_num))).mpr
    have hpow7 : 16 * 2 ^ (e + 3) = 2 ^ (e + 7) := by ring
    omega
  have hq32 : b / 2 ^ (e + 3) < 32 := by
    rw [Nat.div_lt_iff_lt_mul (Nat.pos_pow_of_pos _ (by norm_num))]
    have hpow8 : 32 * 2 ^ (e + 3) = 2 ^ (e + 8) := by ring
    omega
  have hmant : (b >>> (e + 3)) &&& 0x0F = b / 2 ^ (e + 3) - 16 := by
    rw [Nat.shiftRight_eq_div_pow]
    have h15 : (0x0F : Nat) = 2 ^ 4 - 1 := by norm_num
    rw [h15, Nat.and_pow_two_sub_one_eq_mod]
    omega
  have hshl : e <<< 4 = 16 * e := by rw [Nat.shiftLeft_eq]; ring
  have hstep : mulawStep x = 2 ^ (e + 3) := by
    rw [mulawStep, hBIAS, hMAX, ← hbdef, ← hedef]
  have hmain := mulaw_mag_bound x.natAbs hmag
  rw [← hbdef, ← hedef] at hmain
  have hmcast : ((b / 2 ^ (e + 3) - 16 : Nat) : Int) = ((b / 2 ^ (e + 3) : Nat) : Int) - 16 := by
    omega
  have hpow : ((2 : Int) * (((b / 2 ^ (e + 3) : Nat) : Int) - 16) + 33) * 2 ^ (e + 2) - 132 =
      ((b / 2 ^ (e + 3) * 2 ^ (e + 3) + 2 ^ (e + 2) : Nat) : Int) - 132 := by
    push_cast
    ring
  have hfield : 16 * e ||| (b / 2 ^ (e + 3) - 16) = 16 * e + (b / 2 ^ (e + 3) - 16) := by
    have h := Nat.mul_add_lt_is_or (show b / 2 ^ (e + 3) - 16 < 2 ^ 4 by omega) e
    calc 16 * e ||| (b / 2 ^ (e + 3) - 16)
        = 2 ^ 4 * e ||| (b / 2 ^ (e + 3) - 16) := by norm_num
    _ = 2 ^ 4 * e + (b / 2 ^ (e + 3) - 16) := h.symm
    _ = 16 * e + (b / 2 ^ (e + 3) - 16) := by norm_num
  by_cases hx : x < 0
  · have henc : encodeMulawSample x =
        ((128 + 16 * e + (b / 2 ^ (e + 3) - 16)) ^^^ 0xFF) := by
      simp only [encodeMulawSample, if_pos hx, hBIAS, hMAX, ← hbdef, ← hedef, hmant, hshl]
      congr 1
      have hv : 16 * e + (b / 2 ^ (e + 3) - 16) < 2 ^ 7 := by omega
      calc (0x80 : Nat) ||| 16 * e ||| (b / 2 ^ (e + 3) - 16)
          = 0x80 ||| (16 * e ||| (b / 2 ^ (e + 3) - 16)) := Nat.or_assoc _ _ _
      _ = 2 ^ 7 * 1 ||| (16 * e + (b / 2 ^ (e + 3) - 16)) := by rw [hfield]; norm_num
      _ = 2 ^ 7 * 1 + (16 * e + (b / 2 ^ (e + 3) - 16)) := (Nat.mul_add_lt_is_or hv 1).symm
      _ = 128 + 16 * e + (b / 2 ^ (e + 3) - 16) := by ring
    rw [henc, mulawDecodeFormula_eval 128 e _ (Or.inr rfl) he7 (by omega)]
    rw [if_pos rfl, hmcast, hpow, hstep]
    have hxeq : (x.natAbs : Int) = -x := by omega
    rw [hxeq] at hmain
    have hswap : (-1 : Int) * (((b / 2 ^ (e + 3) * 2 ^ (e + 3) + 2 ^ (e + 2) : Nat) : Int) - 132) - x =
        -(((b / 2 ^ (e + 3) * 2 ^ (e + 3) + 2 ^ (e + 2) : Nat) : Int) - 132 - -x) := by ring
    rw [hswap, Int.natAbs_neg]
    exact hmain
  · have henc : encodeMulawSample x =
        ((0 + 16 * e + (b / 2 ^ (e + 3) - 16)) ^^^ 0xFF) := by
      simp only [encodeMulawSample, if_neg hx, hBIAS, hMAX, ← hbdef, ← hedef, hmant, hshl]
      congr 1
      calc (0x00 : Nat) ||| 16 * e ||| (b / 2 ^ (e + 3) - 16)
          = 0x00 ||| (16 * e ||| (b / 2 ^ (e + 3) - 16)) := Nat.or_assoc _ _ _
      _ = 16 * e + (b / 2 ^ (e + 3) - 16) := by rw [hfield]; exact Nat.zero_or _
      _ = 0 + 16 * e + (b / 2 ^ (e + 3) - 16) := by ring
    rw [henc, mulawDecodeFormula_eval 0 e _ (Or.inl rfl) he7 (by omega)]
    rw [if_neg (by norm_num), one_mul, hmcast, hpow, hstep]
    have hxeq : (x.natAbs : Int) = x := by omega
    rw [hxeq] at hmain
    exact hmain

/-- C1: decoding byte 0xFF yields linear PCM 0 and byte 0x00 yields −32124
(the canonical table endpoints); for every 16-bit PCM sample `x` in
[−32768, 32767], decoding the mu-law encoding of `x` reproduces `x` within one
mu-law quantization step (the step width of `x`'s segment). -/
theorem C1_mulaw_codec (x : Int) (hlo : -32768 ≤ x) (hhi : x ≤ 32767) :
    mulawDecodeInt 0xFF = 0 ∧ mulawDecodeInt 0x00 = -32124 ∧
    (mulawDecodeInt (encodeMulawSample x) - x).natAbs ≤ mulawStep x := by
  refine ⟨by decide, by decide, ?_⟩
  have hlt : encodeMulawSample x < 256 := encodeMulawSample_lt x
  have hbridge : mulawDecodeInt (encodeMulawSample x) =
      mulawDecodeFormula (encodeMulawSample x) :=
    mulawTable_eq_formula ⟨encodeMulawSample x, hlt⟩
  rw [hbridge]
  exact mulaw_formula_roundtrip x hlo hhi

/-- Witness for C1 at the concrete sample `x = 1000`. -/
theorem C1_mulaw_codec_witness :
    mulawDecodeInt 0xFF = 0 ∧ mulawDecodeInt 0x00 = -32124 ∧
    (mulawDecodeInt (encodeMulawSample 1000) - 1000).natAbs ≤ mulawStep 1000 :=
  C1_mulaw_codec 1000 (by norm_num) (by norm_num)

/-! ## Frame buffer (`src/audio/buffer.ts`)

`AudioBuffer` holds a `Float32Array` of length `frameSize * maxFrames` and a
`writePosition`; the logically occupied contents are `buffer[0..writePosition)`,
modelled as the list `data`.  The buffer never inspects sample values, so the
element type is a parameter. -/

structure AudioBuffer (α : Type) where
  frameSize : Nat
  maxFrames : Nat
  data : List α

/-- `this.buffer.length = frameSize * maxFrames` (allocated in the ctor). -/
def AudioBuffer.capacity {α} (b : AudioBuffer α) : Nat :=
  b.frameSize * b.maxFrames

/-- `new AudioBuffer(frameSize, maxFrames)`: empty buffer. -/
def AudioBuffer.create (α : Type) (frameSize maxFrames : Nat) : AudioBuffer α :=
  ⟨frameSize, maxFrames, []⟩

/-- `AudioBuffer.push`.  On overflow the source does
`copyWithin(0, overflow); writePosition -= overflow; buffer.set(samples,
writePosition)`.  When `samples.length > capacity` the adjusted
`writePosition` is negative and `Float32Array.prototype.set` throws a
`RangeError`; that failure is modelled as `none`. -/
def AudioBuffer.push {α} (b : AudioBuffer α) (samples : List α) : Option (AudioBuffer α) :=
  if b.data.length + samples.length > b.capacity then
    if b.capacity < samples.length then
      none
    else
      some { b with data := b.data.drop (b.data.length + samples.length - b.capacity) ++ samples }
  else
    some { b with data := b.data ++ samples }

/-- `AudioBuffer.hasFrame`. -/
def AudioBuffer.hasFrame {α} (b : AudioBuffer α) : Bool :=
  b.frameSize ≤ b.data.length

/-- `AudioBuffer.frameCount`. -/
def AudioBuffer.frameCount {α} (b : AudioBuffer α) : Nat :=
  b.data.length / b.frameSize

/-- `AudioBuffer.sampleCount`. -/
def AudioBuffer.sampleCount {α} (b : AudioBuffer α) : Nat :=
  b.data.length

/-- `AudioBuffer.readFrame`: `null` without a complete frame, else the first
`frameSize` samples are removed and returned. -/
def AudioBuffer.readFrame {α} (b : AudioBuffer α) : Option (List α × AudioBuffer α) :=
  if b.hasFrame then
    some (b.data.take b.frameSize, { b with data := b.data.drop b.frameSize })
  else
    none

/-- `AudioBuffer.clear`. -/
def AudioBuffer.clear {α} (b : AudioBuffer α) : AudioBuffer α :=
  { b with data := [] }

/-- Reading `n` successive frames (repeated `readFrame` calls). -/
def AudioBuffer.readFrames {α} : Nat → AudioBuffer α → List (List α)
  | 0, _ => []
  | n + 1, b =>
    match b.readFrame with
    | none => []
    | some (f, b') => f :: AudioBuffer.readFrames n b'

example : (AudioBuffer.create Nat 2 2).push [1, 2, 3] =
    some ⟨2, 2, [1, 2, 3]⟩ := by rfl
example : ((AudioBuffer.create Nat 2 2).push [1, 2, 3, 4, 5, 6]) = none := by rfl
example : (AudioBuffer.push ⟨2, 2, [1, 2, 3]⟩ [4, 5]) = some ⟨2, 2, [2, 3, 4, 5]⟩ := by rfl

/-- Counterexample to C2 as stated: a single push whose length exceeds the
total capacity does not drop the oldest excess samples — the `set` call
throws a `RangeError` (modelled as `none`), so no post-push state with the
newest samples exists.  Buffer: frameSize 1, maxFrames 1 (capacity 1),
push of two samples. -/
theorem C2_counterexample :
    (AudioBuffer.create Nat 1 1).push [0, 0] = none := by rfl

/-- C2 (amended): for a buffer satisfying the capacity invariant and a push
of at most `capacity` samples, the push succeeds, the occupied sample count
stays at most `frameSize × maxFrames`, exactly the oldest excess samples are
dropped (the result is a suffix of old-contents ++ new-samples), and
`frameCount` never exceeds `maxFrames`.  A single push longer than the total
capacity instead fails (throws), as shown by `C2_counterexample`. -/
theorem C2_buffer_capacity {α : Type} (b : AudioBuffer α) (samples : List α)
    (hinv : b.data.length ≤ b.capacity) :
    (samples.length ≤ b.capacity →
      ∃ b', b.push samples = some b' ∧
        b'.frameSize = b.frameSize ∧ b'.maxFrames = b.maxFrames ∧
        b'.data = (b.data ++ samples).drop (b.data.length + samples.length - b.capacity) ∧
        b'.data.length ≤ b.capacity ∧
        b'.frameCount ≤ b.maxFrames) ∧
    (b.capacity < samples.length → b.push samples = none) := by
  constructor
  · intro hlen
    by_cases hover : b.data.length + samples.length > b.capacity
    · refine ⟨{ b with data := b.data.drop (b.data.length + samples.length - b.capacity) ++ samples }, ?_, rfl, rfl, ?_, ?_, ?_⟩
      · rw [AudioBuffer.push, if_pos hover, if_neg (by omega)]
      · rw [List.drop_append_of_le_length (by omega)]
      · have hdl : (b.data.drop (b.data.length + samples.length - b.capacity)).length =
            b.data.length - (b.data.length + samples.length - b.capacity) := List.length_drop _ _
        simp only [List.length_append, hdl]
        omega
      · have hdl : (b.data.drop (b.data.length + samples.length - b.capacity)).length =
            b.data.length - (b.data.length + samples.length - b.capacity) := List.length_drop _ _
        show (b.data.drop (b.data.length + samples.length - b.capacity) ++ samples).length / b.frameSize ≤ b.maxFrames
        rcases Nat.eq_zero_or_pos b.frameSize with hfs | hfs
        · simp [hfs]
        · have hle : (b.data.drop (b.data.length + samples.length - b.capacity) ++ samples).length ≤
              b.frameSize * b.maxFrames := by
            simp only [List.length_append, hdl]
            have : b.capacity = b.frameSize * b.maxFrames := rfl
            omega
          calc (b.data.drop (b.data.length + samples.length - b.capacity) ++ samples).length / b.frameSize
              ≤ b.frameSize * b.maxFrames / b.frameSize := Nat.div_le_div_right hle
          _ = b.maxFrames := Nat.mul_div_cancel_left _ hfs
    · refine ⟨{ b with data := b.data ++ samples }, ?_, rfl, rfl, ?_, ?_, ?_⟩
      · rw [AudioBuffer.push, if_neg hover]
      · have : b.data.length + samples.length - b.capacity = 0 := by omega
        rw [this, List.drop_zero]
      · simp only [List.length_append]; omega
      · show (b.data ++ samples).length / b.frameSize ≤ b.maxFrames
        rcases Nat.eq_zero_or_pos b.frameSize with hfs | hfs
        · simp [hfs]
        · have hle : (b.data ++ samples).length ≤ b.frameSize * b.maxFrames := by
            simp only [List.length_append]
            have : b.capacity = b.frameSize * b.maxFrames := rfl
            omega
          calc (b.data ++ samples).length / b.frameSize
              ≤ b.frameSize * b.maxFrames / b.frameSize := Nat.div_le_div_right hle
          _ = b.maxFrames := Nat.mul_div_cancel_left _ hfs
  · intro hbig
    rw [AudioBuffer.push, if_pos (by omega), if_pos hbig]

/-- Witness for C2 (amended) on a concrete overflowing push: buffer 2×2
holding [1,2,3], pushing [4,5] drops the oldest sample. -/
theorem C2_buffer_capacity_witness :
    (⟨2, 2, [1, 2, 3]⟩ : AudioBuffer Nat).data.length ≤ (⟨2, 2, [1, 2, 3]⟩ : AudioBuffer Nat).capacity ∧
    ∃ b', (⟨2, 2, [1, 2, 3]⟩ : AudioBuffer Nat).push [4, 5] = some b' ∧
      b'.frameSize = 2 ∧ b'.maxFrames = 2 ∧
      b'.data = [2, 3, 4, 5] ∧ b'.data.length ≤ 4 ∧ b'.frameCount ≤ 2 := by
  refine ⟨by norm_num [AudioBuffer.capacity], ?_⟩
  obtain ⟨b', h1, h2, h3, h4, h5, h6⟩ :=
    (C2_buffer_capacity (⟨2, 2, [1, 2, 3]⟩ : AudioBuffer Nat) [4, 5]
      (by norm_num [AudioBuffer.capacity])).1 (by norm_num [AudioBuffer.capacity])
  exact ⟨b', h1, h2, h3, by simpa [AudioBuffer.capacity] using h4, by simpa [AudioBuffer.capacity] using h5, by simpa using h6⟩

/-- Reading frames from a buffer holding exactly `N` frames' worth of data
yields the consecutive `frameSize`-sized slices in order. -/
theorem readFrames_chunks {α : Type} (fs mf : Nat) :
    ∀ (N : Nat) (xs : List α), xs.length = N * fs →
      AudioBuffer.readFrames N ⟨fs, mf, xs⟩ =
        (List.range N).map (fun i => (xs.drop (i * fs)).take fs) := by
  intro N
  induction N with
  | zero => intro xs h; simp [AudioBuffer.readFrames]
  | succ n ih =>
    intro xs h
    have hfs : fs ≤ xs.length := by
      rw [h, Nat.succ_mul]; omega
    have hread : (AudioBuffer.readFrame (⟨fs, mf, xs⟩ : AudioBuffer α)) =
        some (xs.take fs, ⟨fs, mf, xs.drop fs⟩) := by
      rw [AudioBuffer.readFrame, if_pos]
      simp [AudioBuffer.hasFrame, hfs]
    rw [AudioBuffer.readFrames, hread]
    show xs.take fs :: AudioBuffer.readFrames n ⟨fs, mf, xs.drop fs⟩ =
      (List.range (n + 1)).map (fun i => (xs.drop (i * fs)).take fs)
    have hlen : (xs.drop fs).length = n * fs := by
      rw [List.length_drop, h, Nat.succ_mul]; omega
    rw [ih (xs.drop fs) hlen]
    rw [List.range_succ_eq_map, List.map_cons, List.map_map]
    congr 1
    · simp
    · apply List.map_congr_left
      intro i _
      show ((xs.drop fs).drop (i * fs)).take fs = (xs.drop (Nat.succ i * fs)).take fs
      rw [List.drop_drop, Nat.succ_mul]
      congr 2
      omega

/-- C7: pushing `N × frameSize` samples (within capacity) into a fresh
AudioBuffer and then reading `N` frames yields exactly the consecutive
`frameSize`-sized slices of the pushed data in order; and `readFrame`
returns `null` whenever fewer than `frameSize` samples are buffered. -/
theorem C7_buffer_fifo {α : Type} (fs mf N : Nat) (xs : List α)
    (hlen : xs.length = N * fs) (hcap : N * fs ≤ fs * mf) :
    (∃ b, (AudioBuffer.create α fs mf).push xs = some b ∧
      AudioBuffer.readFrames N b = (List.range N).map (fun i => (xs.drop (i * fs)).take fs)) ∧
    (∀ c : AudioBuffer α, c.data.length < c.frameSize → c.readFrame = none) := by
  constructor
  · refine ⟨⟨fs, mf, xs⟩, ?_, readFrames_chunks fs mf N xs hlen⟩
    rw [AudioBuffer.create, AudioBuffer.push]
    split
    · rename_i hgt
      exfalso
      simp only [AudioBuffer.capacity, List.length_nil] at hgt
      omega
    · rfl
  · intro c hc
    have hcond : ¬(c.hasFrame = true) := by
      simp only [AudioBuffer.hasFrame, decide_eq_true_eq]
      omega
    rw [AudioBuffer.readFrame, if_neg hcond]

/-- Witness for C7: frameSize 2, two frames of concrete data. -/
theorem C7_buffer_fifo_witness :
    ([1, 2, 3, 4] : List Nat).length = 2 * 2 ∧ 2 * 2 ≤ 2 * 3 ∧
    ((∃ b, (AudioBuffer.create Nat 2 3).push [1, 2, 3, 4] = some b ∧
      AudioBuffer.readFrames 2 b =
        (List.range 2).map (fun i => (([1, 2, 3, 4] : List Nat).drop (i * 2)).take 2)) ∧
    (∀ c : AudioBuffer Nat, c.data.length < c.frameSize → c.readFrame = none)) :=
  ⟨by norm_num, by norm_num, C7_buffer_fifo 2 3 2 [1, 2, 3, 4] (by norm_num) (by norm_num)⟩

/-! ## Resampler (`src/audio/resampler.ts`)

Sample values and rates are modelled in exact rational arithmetic (`ℚ`)
standing in for JS float64. -/

/-- The state of a `LinearResampler`: construction parameters plus the
fractional phase retained across `process` calls (`reset()` clears it). -/
structure LinearResampler where
  fromRate : ℚ
  toRate : ℚ
  fractionalPosition : ℚ

/-- `createResampler(fromRate, toRate)`: fresh resampler, phase 0. -/
def createResampler (fromRate toRate : ℚ) : LinearResampler :=
  ⟨fromRate, toRate, 0⟩

/-- `LinearResampler.reset`. -/
def LinearResampler.reset (r : LinearResampler) : LinearResampler :=
  { r with fractionalPosition := 0 }

/-- The main loop of `LinearResampler.process`: one iteration per output
sample (the fuel is `outputLength - outputIndex`), stopping early when
`inputIndex` reaches the input length.  The inner
`while (fractionalPosition >= 1)` loop advances `inputIndex` by
`⌊fractionalPosition⌋` and keeps the remainder.  Returns the produced
samples and the final fractional position. -/
def processGo (input : List ℚ) (ratio : ℚ) : Nat → Nat → ℚ → List ℚ × ℚ
  | 0, _, frac => ([], frac)
  | n + 1, inputIndex, frac =>
    if inputIndex < input.length then
      let currentSample := input.getD inputIndex 0
      let nextSample := input.getD (min (inputIndex + 1) (input.length - 1)) currentSample
      let outSample := currentSample + (nextSample - currentSample) * frac
      let frac2 := frac + ratio
      let steps := (Int.floor frac2).toNat
      let rest := processGo input ratio n (inputIndex + steps) (frac2 - (steps : ℚ))
      (outSample :: rest.1, rest.2)
    else ([], frac)

/-- `LinearResampler.process`: identity when the rates agree, else linear
interpolation into a buffer of `ceil(len/ratio)` slots, sliced to the number
of produced samples.  Returns the output and the updated resampler. -/
def LinearResampler.process (r : LinearResampler) (input : List ℚ) :
    List ℚ × LinearResampler :=
  if r.fromRate = r.toRate then (input, r)
  else
    let ratio := r.fromRate / r.toRate
    let outputLength := (Int.ceil ((input.length : ℚ) / ratio)).toNat
    let res := processGo input ratio outputLength 0 r.fractionalPosition
    (res.1, { r with fractionalPosition := res.2 })

/-- `resample` (stateless one-shot variant) from `resampler.ts`. -/
def resample (audio : List ℚ) (fromRate toRate : ℚ) : List ℚ :=
  if fromRate = toRate then audio
  else
    let ratio := fromRate / toRate
    let outputLength := (Int.ceil ((audio.length : ℚ) / ratio)).toNat
    (List.range outputLength).map (fun (i : Nat) =>
      let srcPosition := (i : ℚ) * ratio
      let srcIndex := (Int.floor srcPosition).toNat
      let fraction := srcPosition - (srcIndex : ℚ)
      let sample1 := audio.getD srcIndex 0
      let sample2 := audio.getD (min (srcIndex + 1) (audio.length - 1)) sample1
      sample1 + (sample2 - sample1) * fraction)

example : (resample [1, 2] 8000 24000).length = 6 := by
  rw [resample, if_neg (by norm_num), List.length_map, List.length_range]
  norm_num
  decide
example : resample [1, 2] 8000 8000 = [1, 2] := by
  rw [resample, if_pos rfl]

/-- The `process` loop emits exactly `n` samples when `n` is the ceiling
count of input remaining from position `i + frac`, for phase `frac ∈ [0,1)`
and positive ratio. -/
theorem processGo_length (input : List ℚ) (ratio : ℚ) (hr : 0 < ratio) :
    ∀ (n i : Nat) (frac : ℚ), 0 ≤ frac → frac < 1 →
      (n : Int) = Int.ceil ((((input.length : ℚ) - i) - frac) / ratio) →
      (processGo input ratio n i frac).1.length = n := by
  intro n
  induction n with
  | zero => intro i frac _ _ _; rfl
  | succ k ih =>
    intro i frac h0 h1 hceil
    have hcpos : (0 : Int) < Int.ceil ((((input.length : ℚ) - i) - frac) / ratio) := by
      omega
    have hApos : 0 < (((input.length : ℚ) - i) - frac) / ratio := Int.ceil_pos.mp hcpos
    have hnum : 0 < ((input.length : ℚ) - i) - frac := by
      rcases div_pos_iff.mp hApos with ⟨h, _⟩ | ⟨_, h⟩
      · exact h
      · linarith
    have hguard : i < input.length := by
      have hq : (i : ℚ) < (input.length : ℚ) := by linarith
      exact_mod_cast hq
    have hf2 : 0 ≤ frac + ratio := by linarith
    have hfl : 0 ≤ Int.floor (frac + ratio) := Int.floor_nonneg.mpr hf2
    have hc : (((Int.floor (frac + ratio)).toNat : Nat) : ℚ) =
        ((Int.floor (frac + ratio)) : ℚ) := by
      rw [← Int.cast_natCast, Int.toNat_of_nonneg hfl]
    have hfract : frac + ratio - (((Int.floor (frac + ratio)).toNat : Nat) : ℚ) =
        Int.fract (frac + ratio) := by
      rw [Int.fract, hc]
    rw [processGo, if_pos hguard]
    simp only [List.length_cons]
    have hnext : (processGo input ratio k (i + (Int.floor (frac + ratio)).toNat)
        (frac + ratio - (((Int.floor (frac + ratio)).toNat : Nat) : ℚ))).1.length = k := by
      apply ih
      · rw [hfract]; exact Int.fract_nonneg _
      · rw [hfract]; exact Int.fract_lt_one _
      · rw [hfract]
        have harg : ((input.length : ℚ) - ((i + (Int.floor (frac + ratio)).toNat : Nat) : ℚ) -
            Int.fract (frac + ratio)) = (((input.length : ℚ) - i) - frac) - ratio := by
          rw [Int.fract]
          push_cast
          rw [hc]
          ring
        rw [harg, sub_div, div_self (ne_of_gt hr), Int.ceil_sub_one]
        omega
    omega

/-- C6: for positive rates, the stateless `resample` output length is exactly
`ceil(len · to / from)`, and a fresh (reset-phase) streaming
`LinearResampler.process` produces a length within ±1 of that value (in fact
exactly equal). -/
theorem C6_resample_length (audio : List ℚ) (fromRate toRate : ℚ)
    (hf : 0 < fromRate) (ht : 0 < toRate) :
    (resample audio fromRate toRate).length =
      (Int.ceil ((audio.length : ℚ) * toRate / fromRate)).toNat ∧
    ((((createResampler fromRate toRate).process audio).1.length : Int) -
        Int.ceil ((audio.length : ℚ) * toRate / fromRate)).natAbs ≤ 1 := by
  have hdiv : ((audio.length : ℚ) / (fromRate / toRate)) =
      (audio.length : ℚ) * toRate / fromRate := by
    field_simp
  by_cases heq : fromRate = toRate
  · subst heq
    have hval : (audio.length : ℚ) * fromRate / fromRate = (audio.length : ℚ) := by
      field_simp
    constructor
    · rw [resample, if_pos rfl, hval, Int.ceil_natCast, Int.toNat_natCast]
    · simp only [LinearResampler.process, createResampler]
      rw [if_pos trivial]
      simp [hval]
  · have hratio : 0 < fromRate / toRate := div_pos hf ht
    have hceilnn : 0 ≤ Int.ceil ((audio.length : ℚ) / (fromRate / toRate)) := by
      apply Int.ceil_nonneg
      positivity
    have hlen : (processGo audio (fromRate / toRate)
        ((Int.ceil ((audio.length : ℚ) / (fromRate / toRate))).toNat) 0 0).1.length =
        (Int.ceil ((audio.length : ℚ) / (fromRate / toRate))).toNat := by
      apply processGo_length audio (fromRate / toRate) hratio
      · exact le_refl 0
      · norm_num
      · rw [Int.toNat_of_nonneg hceilnn]
        norm_num
    constructor
    · rw [resample, if_neg heq, List.length_map, List.length_range, hdiv]
    · simp only [LinearResampler.process, createResampler]
      rw [if_neg heq]
      show ((((processGo audio (fromRate / toRate)
          ((Int.ceil ((audio.length : ℚ) / (fromRate / toRate))).toNat) 0
          (0 : ℚ)).1.length : Nat) : Int) -
          Int.ceil ((audio.length : ℚ) * toRate / fromRate)).natAbs ≤ 1
      rw [hlen, ← hdiv, Int.toNat_of_nonneg hceilnn]
      simp

/-- Witness for C6 at a concrete 2-sample input resampled 8 kHz → 24 kHz. -/
theorem C6_resample_length_witness :
    (resample [1, 2] 8000 24000).length =
      (Int.ceil ((([1, 2] : List ℚ).length : ℚ) * 24000 / 8000)).toNat ∧
    ((((createResampler 8000 24000).process [1, 2]).1.length : Int) -
        Int.ceil ((([1, 2] : List ℚ).length : ℚ) * 24000 / 8000)).natAbs ≤ 1 :=
  C6_resample_length [1, 2] 8000 24000 (by norm_num) (by norm_num)

/-! ## Engine wire protocol (`src/personaplex/protocol.ts`)

Buffers are modelled as byte lists.  Text/metadata payloads are kept as raw
bytes (UTF-8 decoding and JSON parsing do not affect any dispatch decision). -/

/-- Decoded `PersonaPlexMessage` (tagged union from `protocol.ts`). -/
inductive PersonaPlexMessage where
  | handshake
  | audio (data : List Nat)
  | text (data : List Nat)
  | control (action : String)
  | metadata (raw : List Nat)
  | error (data : List Nat)
  | ping
  | unknown (rawType : Int)
deriving DecidableEq, Repr

/-- `decodeControlAction`: table lookup with `'unknown'` fallback. -/
def decodeControlAction (code : Option Nat) : String :=
  match code with
  | some 0x00 => "start"
  | some 0x01 => "endTurn"
  | some 0x02 => "pause"
  | some 0x03 => "restart"
  | _ => "unknown"

/-- `decodeMessage` from `protocol.ts`: dispatch on the first byte; empty
input yields `unknown (-1)`; an unrecognized type byte is echoed back. -/
def decodeMessage (data : List Nat) : PersonaPlexMessage :=
  match data with
  | [] => .unknown (-1)
  | t :: payload =>
    if t = 0x00 then .handshake
    else if t = 0x01 then .audio payload
    else if t = 0x02 then .text payload
    else if t = 0x03 then .control (decodeControlAction payload.head?)
    else if t = 0x04 then .metadata payload
    else if t = 0x05 then .error payload
    else if t = 0x06 then .ping
    else .unknown (t : Int)

/-- `encodeAudioMessage`: the audio type byte followed by the payload. -/
def encodeAudioMessage (opusData : List Nat) : List Nat :=
  0x01 :: opusData

example : decodeMessage [0x00, 7] = .handshake := by decide
example : decodeMessage [] = .unknown (-1) := by decide
example : decodeMessage [0x01, 9, 9] = .audio [9, 9] := by decide
example : decodeMessage [0x42] = .unknown 0x42 := by decide

/-! ## Engine client lifecycle (`src/personaplex/client.ts`)

The `PersonaPlexClient` state: construction options, the mutable flags, and
a ghost log `sentMessages` of all byte strings written to the socket.
`wsOpen` models `this.ws !== null && this.ws.readyState === OPEN`. -/

structure PersonaPlexClient where
  autoReconnect : Bool
  maxReconnectAttempts : Nat
  reconnectDelay : ℚ
  reconnectAttempts : Nat
  isConnecting : Bool
  isReady : Bool
  shouldReconnect : Bool
  wsOpen : Bool
  sentMessages : List (List Nat)

/-- A freshly constructed client after `connect()` has initialised the flags
(`isConnecting := true`, `shouldReconnect := true`, `reconnectAttempts := 0`). -/
def PersonaPlexClient.create (autoReconnect : Bool) (maxReconnectAttempts : Nat)
    (reconnectDelay : ℚ) : PersonaPlexClient :=
  { autoReconnect := autoReconnect
    maxReconnectAttempts := maxReconnectAttempts
    reconnectDelay := reconnectDelay
    reconnectAttempts := 0
    isConnecting := true
    isReady := false
    shouldReconnect := true
    wsOpen := false
    sentMessages := [] }

/-- Result of the pre-handshake branch of the `close` handler. -/
inductive PreCloseResult where
  | retry (attempt : Nat) (delay : ℚ)
  | reject (msg : String)
deriving DecidableEq, Repr

/-- The `close` handler branch for `!this.isReady` (socket closed before the
handshake): with `shouldReconnect` and attempts remaining, increment the
counter and schedule `connectInternal` again after
`reconnectDelay * 1.5 ^ reconnectAttempts` (counter already incremented);
otherwise reject the pending `connect()` promise naming the attempt count. -/
def onPreHandshakeClose (c : PersonaPlexClient) : PersonaPlexClient × PreCloseResult :=
  if c.shouldReconnect = true ∧ c.reconnectAttempts < c.maxReconnectAttempts then
    ({ c with wsOpen := false, reconnectAttempts := c.reconnectAttempts + 1 },
      .retry (c.reconnectAttempts + 1)
        (c.reconnectDelay * (3 / 2 : ℚ) ^ (c.reconnectAttempts + 1)))
  else
    ({ c with wsOpen := false, isConnecting := false },
      .reject ("Failed to connect after " ++ toString c.reconnectAttempts ++
        " attempts: Connection closed"))

/-- Result of `attemptReconnect`. -/
inductive ReconnectResult where
  | gaveUp (errorMsg : String)
  | scheduled (attempt : Nat) (delay : ℚ)
deriving DecidableEq, Repr

/-- `attemptReconnect`: past the ceiling, emit an error and stop; otherwise
increment the counter and wait `reconnectDelay * 2 ^ (reconnectAttempts - 1)`
before reconnecting. -/
def attemptReconnect (c : PersonaPlexClient) : PersonaPlexClient × ReconnectResult :=
  if c.maxReconnectAttempts ≤ c.reconnectAttempts then
    (c, .gaveUp "Max reconnection attempts reached")
  else
    ({ c with reconnectAttempts := c.reconnectAttempts + 1 },
      .scheduled (c.reconnectAttempts + 1)
        (c.reconnectDelay * (2 : ℚ) ^ (c.reconnectAttempts + 1 - 1)))

/-- Events emitted by the client. -/
inductive ClientEmit where
  | connectedEvt
  | disconnectedEvt (reason : String)
  | readyEvt
  | audioEvt (data : List Nat)
  | textEvt (data : List Nat)
  | errorEvt
deriving DecidableEq, Repr

/-- The `close` handler branch for an established (Ready) connection: clear
the flags, emit `disconnected`, and — with auto-reconnect enabled and
`shouldReconnect` — run `attemptReconnect`. -/
def onPostReadyClose (c : PersonaPlexClient) (reason : String) :
    PersonaPlexClient × List ClientEmit × Option ReconnectResult :=
  let c1 := { c with isConnecting := false, isReady := false, wsOpen := false }
  if c1.autoReconnect = true ∧ c1.shouldReconnect = true then
    ((attemptReconnect c1).1, [.disconnectedEvt reason], some (attemptReconnect c1).2)
  else
    (c1, [.disconnectedEvt reason], none)

/-- `sendAudio`: a `StateError` ("Client is not connected") unless the
handshake has been observed and the socket is open; on success the encoded
audio message is written to the socket. -/
def sendAudio (c : PersonaPlexClient) (opusData : List Nat) :
    Except String PersonaPlexClient :=
  if c.isReady = false ∨ c.wsOpen = false then
    .error "Client is not connected"
  else
    .ok { c with sentMessages := c.sentMessages ++ [encodeAudioMessage opusData] }

/-- `handleMessage`: decode, emit `message`, then dispatch; a handshake sets
`isReady` and resolves the pending connect. -/
def handleMessage (c : PersonaPlexClient) (data : List Nat) :
    PersonaPlexClient × List ClientEmit :=
  match decodeMessage data with
  | .handshake => ({ c with isReady := true }, [.readyEvt])
  | .audio d => (c, [.audioEvt d])
  | .text d => (c, [.textEvt d])
  | .error _ => (c, [.errorEvt])
  | _ => (c, [])

/-- A run of `n` consecutive pre-handshake socket closes starting from client
state `c`: each close triggers the pre-handshake close handler; once the
pending `connect()` is rejected there is no socket and no further handler
runs, so remaining closes change nothing. -/
def connectCloseRun (c : PersonaPlexClient) : Nat → PersonaPlexClient × Option String
  | 0 => (c, none)
  | n + 1 =>
    match onPreHandshakeClose c with
    | (c', .retry _ _) => connectCloseRun c' n
    | (c', .reject msg) => (c', some msg)

theorem connectCloseRun_retry (c : PersonaPlexClient) (n : Nat)
    (h : c.shouldReconnect = true ∧ c.reconnectAttempts < c.maxReconnectAttempts) :
    connectCloseRun c (n + 1) =
      connectCloseRun
        { c with wsOpen := false, reconnectAttempts := c.reconnectAttempts + 1 } n := by
  simp only [connectCloseRun, onPreHandshakeClose]
  rw [if_pos h]

theorem connectCloseRun_reject (c : PersonaPlexClient) (n : Nat)
    (h : ¬(c.shouldReconnect = true ∧ c.reconnectAttempts < c.maxReconnectAttempts)) :
    connectCloseRun c (n + 1) =
      ({ c with wsOpen := false, isConnecting := false },
        some ("Failed to connect after " ++ toString c.reconnectAttempts ++
          " attempts: Connection closed")) := by
  simp only [connectCloseRun, onPreHandshakeClose]
  rw [if_neg h]

/-- While the retry budget lasts, every pre-handshake close schedules another
retry and the pending `connect()` stays unsettled. -/
theorem connectCloseRun_pending : ∀ (n : Nat) (c : PersonaPlexClient),
    c.shouldReconnect = true →
    c.reconnectAttempts + n ≤ c.maxReconnectAttempts →
    (connectCloseRun c n).2 = none := by
  intro n
  induction n with
  | zero => intro c _ _; rfl
  | succ m ih =>
    intro c hsr hle
    rw [connectCloseRun_retry c m ⟨hsr, by omega⟩]
    apply ih
    · exact hsr
    · show c.reconnectAttempts + 1 + m ≤ c.maxReconnectAttempts
      omega

/-- Once the budget is exhausted, the next close rejects naming the attempt
count, and any further closes leave the settled state unchanged. -/
theorem connectCloseRun_exhaust : ∀ (n : Nat) (c : PersonaPlexClient),
    c.shouldReconnect = true →
    c.reconnectAttempts + n = c.maxReconnectAttempts →
    ∀ k, connectCloseRun c (n + 1 + k) = connectCloseRun c (n + 1) ∧
      (connectCloseRun c (n + 1)).2 =
        some ("Failed to connect after " ++ toString c.maxReconnectAttempts ++
          " attempts: Connection closed") := by
  intro n
  induction n with
  | zero =>
    intro c hsr heq k
    have hcond : ¬(c.shouldReconnect = true ∧
        c.reconnectAttempts < c.maxReconnectAttempts) := by
      intro ⟨_, hlt⟩
      omega
    have e1 : 0 + 1 + k = k + 1 := by omega
    have e2 : (0 : Nat) + 1 = 0 + 1 := rfl
    constructor
    · rw [e1, connectCloseRun_reject c k hcond, connectCloseRun_reject c 0 hcond]
    · rw [connectCloseRun_reject c 0 hcond]
      have hname : c.reconnectAttempts = c.maxReconnectAttempts := by omega
      rw [hname]
  | succ m ih =>
    intro c hsr heq k
    have hlt : c.reconnectAttempts < c.maxReconnectAttempts := by omega
    have e1 : m + 1 + 1 + k = (m + 1 + k) + 1 := by omega
    set c' : PersonaPlexClient :=
      { c with wsOpen := false, reconnectAttempts := c.reconnectAttempts + 1 } with hc'
    have hsr' : c'.shouldReconnect = true := hsr
    have heq' : c'.reconnectAttempts + m = c'.maxReconnectAttempts := by
      show c.reconnectAttempts + 1 + m = c.maxReconnectAttempts
      omega
    have hmax' : c'.maxReconnectAttempts = c.maxReconnectAttempts := rfl
    constructor
    · rw [e1, connectCloseRun_retry c (m + 1 + k) ⟨hsr, hlt⟩,
        connectCloseRun_retry c (m + 1) ⟨hsr, hlt⟩, ← hc']
      exact (ih c' hsr' heq' k).1
    · rw [connectCloseRun_retry c (m + 1) ⟨hsr, hlt⟩, ← hc']
      rw [(ih c' hsr' heq' k).2, hmax']

/-- Counterexample to C3 as stated: with `maxReconnectAttempts = 1`, after 1
consecutive pre-handshake close the pending `connect()` has not rejected — a
retry is scheduled instead.  Rejection needs `maxReconnectAttempts + 1`
closes (the initial attempt's close plus one per scheduled retry). -/
theorem C3_counterexample :
    (connectCloseRun (PersonaPlexClient.create true 1 1000) 1).2 = none :=
  connectCloseRun_pending 1 (PersonaPlexClient.create true 1 1000) rfl (by show 0 + 1 ≤ 1; omega)

/-- C3 (amended): if the engine socket closes before the handshake on every
attempt, then after `maxReconnectAttempts + 1` consecutive pre-handshake
closes (the initial attempt plus `maxReconnectAttempts` retries) the pending
`connect()` rejects with an error naming the attempt count, and no further
retry is scheduled after that rejection (further closes leave the settled
state unchanged); after only `maxReconnectAttempts` closes it has not yet
rejected. -/
theorem C3_reconnect_exhaustion (auto : Bool) (max : Nat) (delay : ℚ) :
    (connectCloseRun (PersonaPlexClient.create auto max delay) max).2 = none ∧
    (connectCloseRun (PersonaPlexClient.create auto max delay) (max + 1)).2 =
      some ("Failed to connect after " ++ toString max ++ " attempts: Connection closed") ∧
    (∀ k, connectCloseRun (PersonaPlexClient.create auto max delay) (max + 1 + k) =
      connectCloseRun (PersonaPlexClient.create auto max delay) (max + 1)) := by
  have hsr : (PersonaPlexClient.create auto max delay).shouldReconnect = true := rfl
  have heq : (PersonaPlexClient.create auto max delay).reconnectAttempts + max =
      (PersonaPlexClient.create auto max delay).maxReconnectAttempts := by
    show 0 + max = max
    omega
  refine ⟨?_, ?_, ?_⟩
  · exact connectCloseRun_pending max _ hsr (by omega)
  · have h := (connectCloseRun_exhaust max _ hsr heq 0).2
    exact h
  · intro k
    exact (connectCloseRun_exhaust max _ hsr heq k).1

/-- Counterexample to C5 as stated: after reaching Ready, the first retry
(attempt counter 1) is scheduled with delay `reconnectDelay * 2^0 =
reconnectDelay`, not `reconnectDelay * 2^1` as the claim's
`delay = reconnectDelay × 2^attempt` would require.  Concrete client:
`reconnectDelay = 1000`, counter 0 before the close. -/
theorem C5_counterexample :
    (attemptReconnect (PersonaPlexClient.create true 5 1000)).2 =
      ReconnectResult.scheduled 1 1000 ∧
    (1000 : ℚ) ≠ (PersonaPlexClient.create true 5 1000).reconnectDelay * 2 ^ 1 := by
  constructor
  · simp only [attemptReconnect, PersonaPlexClient.create]
    rw [if_neg (by omega : ¬(5 : Nat) ≤ 0)]
    norm_num
  · show (1000 : ℚ) ≠ 1000 * 2 ^ 1
    norm_num

/-- C5 (amended): a pre-handshake close with `shouldReconnect` and attempts
remaining schedules a retry after `reconnectDelay × 1.5^attempt` (`attempt`
being the counter value for that retry); a post-Ready close with
auto-reconnect emits a `disconnected` event and schedules a retry after
`reconnectDelay × 2^(attempt−1)`, bounded by the same
`maxReconnectAttempts` ceiling (at or past the ceiling, `attemptReconnect`
gives up with an error instead). -/
theorem C5_backoff_schedule (c : PersonaPlexClient) (reason : String)
    (hsr : c.shouldReconnect = true) (hauto : c.autoReconnect = true)
    (hlt : c.reconnectAttempts < c.maxReconnectAttempts) :
    onPreHandshakeClose c =
      ({ c with wsOpen := false, reconnectAttempts := c.reconnectAttempts + 1 },
        PreCloseResult.retry (c.reconnectAttempts + 1)
          (c.reconnectDelay * (3 / 2 : ℚ) ^ (c.reconnectAttempts + 1))) ∧
    (onPostReadyClose c reason).2.1 = [ClientEmit.disconnectedEvt reason] ∧
    (onPostReadyClose c reason).2.2 =
      some (ReconnectResult.scheduled (c.reconnectAttempts + 1)
        (c.reconnectDelay * (2 : ℚ) ^ (c.reconnectAttempts + 1 - 1))) ∧
    (∀ d : PersonaPlexClient, d.maxReconnectAttempts ≤ d.reconnectAttempts →
      (attemptReconnect d).2 = ReconnectResult.gaveUp "Max reconnection attempts reached") := by
  refine ⟨?_, ?_, ?_, ?_⟩
  · rw [onPreHandshakeClose, if_pos ⟨hsr, hlt⟩]
  · rw [onPostReadyClose]
    simp only []
    rw [if_pos ⟨hauto, hsr⟩]
  · rw [onPostReadyClose]
    simp only []
    rw [if_pos ⟨hauto, hsr⟩]
    simp only []
    rw [attemptReconnect, if_neg (by show ¬(c.maxReconnectAttempts ≤ c.reconnectAttempts); omega)]
  · intro d hd
    rw [attemptReconnect, if_pos hd]

/-- Witness for C5 (amended) on a concrete just-created client. -/
theorem C5_backoff_schedule_witness :
    onPreHandshakeClose (PersonaPlexClient.create true 5 1000) =
      ({ PersonaPlexClient.create true 5 1000 with
          wsOpen := false, reconnectAttempts := 0 + 1 },
        PreCloseResult.retry (0 + 1) (1000 * (3 / 2 : ℚ) ^ (0 + 1))) ∧
    (onPostReadyClose (PersonaPlexClient.create true 5 1000) "gone").2.1 =
      [ClientEmit.disconnectedEvt "gone"] ∧
    (onPostReadyClose (PersonaPlexClient.create true 5 1000) "gone").2.2 =
      some (ReconnectResult.scheduled (0 + 1) (1000 * (2 : ℚ) ^ (0 + 1 - 1))) ∧
    (∀ d : PersonaPlexClient, d.maxReconnectAttempts ≤ d.reconnectAttempts →
      (attemptReconnect d).2 = ReconnectResult.gaveUp "Max reconnection attempts reached") :=
  C5_backoff_schedule (PersonaPlexClient.create true 5 1000) "gone" rfl rfl
    (by show (0 : Nat) < 5; omega)

/-- External events driving one client: socket open, an incoming message,
a caller invoking `sendAudio` (a throw leaves the state unchanged), and a
socket close (dispatching on `isReady` as the source `close` handler does). -/
inductive ClientEvent where
  | wsOpenEvt
  | wsMessageEvt (data : List Nat)
  | sendAudioCall (opusData : List Nat)
  | wsCloseEvt (reason : String)

/-- One step of the client's event loop. -/
def clientStep (c : PersonaPlexClient) (e : ClientEvent) : PersonaPlexClient :=
  match e with
  | .wsOpenEvt => { c with wsOpen := true, reconnectAttempts := 0 }
  | .wsMessageEvt data => (handleMessage c data).1
  | .sendAudioCall opusData =>
    match sendAudio c opusData with
    | .ok c' => c'
    | .error _ => c
  | .wsCloseEvt reason =>
    if c.isReady = false then (onPreHandshakeClose c).1
    else (onPostReadyClose c reason).1

/-- Running the client over a sequence of events. -/
def runClient (c : PersonaPlexClient) (events : List ClientEvent) : PersonaPlexClient :=
  events.foldl clientStep c

/-- Whether an event delivers a handshake message. -/
def isHandshakeEvent : ClientEvent → Prop
  | .wsMessageEvt data => decodeMessage data = .handshake
  | _ => False

/-- A non-handshake message leaves the client state unchanged. -/
theorem handleMessage_state (c : PersonaPlexClient) (data : List Nat)
    (h : decodeMessage data ≠ .handshake) : (handleMessage c data).1 = c := by
  rw [handleMessage]
  rcases hm : decodeMessage data with _ | d | d | a | r | d | _ | t <;> simp_all

/-- Before any handshake has been observed, the client never becomes ready
and never writes to the socket. -/
theorem runClient_no_handshake : ∀ (events : List ClientEvent) (c : PersonaPlexClient),
    c.isReady = false → (∀ e ∈ events, ¬ isHandshakeEvent e) →
    (runClient c events).isReady = false ∧
    (runClient c events).sentMessages = c.sentMessages := by
  intro events
  induction events with
  | nil => intro c h _; exact ⟨h, rfl⟩
  | cons e rest ih =>
    intro c hready hno
    have hstep : (clientStep c e).isReady = false ∧
        (clientStep c e).sentMessages = c.sentMessages := by
      match e with
      | .wsOpenEvt => exact ⟨hready, rfl⟩
      | .wsMessageEvt data =>
        have hne : decodeMessage data ≠ .handshake := hno _ (List.mem_cons_self _ _)
        simp only [clientStep]
        rw [handleMessage_state c data hne]
        exact ⟨hready, rfl⟩
      | .sendAudioCall opusData =>
        simp only [clientStep]
        rw [sendAudio, if_pos (Or.inl hready)]
        exact ⟨hready, rfl⟩
      | .wsCloseEvt reason =>
        simp only [clientStep]
        rw [if_pos hready]
        simp only [onPreHandshakeClose]
        split
        · exact ⟨hready, rfl⟩
        · exact ⟨hready, rfl⟩
    have hrest : ∀ e' ∈ rest, ¬ isHandshakeEvent e' := fun e' he' => hno e' (List.mem_cons_of_mem _ he')
    have := ih (clientStep c e) hstep.1 hrest
    rw [show runClient c (e :: rest) = runClient (clientStep c e) rest from rfl]
    exact ⟨this.1, this.2.trans hstep.2⟩

/-- C4: `sendAudio` before the handshake throws the StateError
"Client is not connected" synchronously; after a handshake is received with
the socket open it succeeds, appending the encoded audio message to the
socket; and over any event sequence containing no handshake message, no
bytes at all are written to the engine socket. -/
theorem C4_handshake_gating (c : PersonaPlexClient) (hs opus : List Nat)
    (events : List ClientEvent)
    (hhs : decodeMessage hs = PersonaPlexMessage.handshake)
    (hopen : c.wsOpen = true)
    (hready0 : c.isReady = false)
    (hnohs : ∀ e ∈ events, ¬ isHandshakeEvent e) :
    (∀ (d : PersonaPlexClient) (a : List Nat), d.isReady = false →
      sendAudio d a = Except.error "Client is not connected") ∧
    sendAudio (handleMessage c hs).1 opus =
      Except.ok { (handleMessage c hs).1 with
        sentMessages := (handleMessage c hs).1.sentMessages ++ [encodeAudioMessage opus] } ∧
    (runClient { c with sentMessages := [] } events).sentMessages = [] := by
  refine ⟨?_, ?_, ?_⟩
  · intro d a hd
    rw [sendAudio, if_pos (Or.inl hd)]
  · have h1 : (handleMessage c hs).1 = { c with isReady := true } := by
      rw [handleMessage, hhs]
    rw [h1, sendAudio, if_neg]
    intro hor
    rcases hor with hr | ho
    · exact absurd hr (by simp)
    · rw [show ({ c with isReady := true } : PersonaPlexClient).wsOpen = c.wsOpen from rfl] at ho
      rw [hopen] at ho
      exact absurd ho (by simp)
  · exact (runClient_no_handshake events { c with sentMessages := [] } hready0 hnohs).2

/-- Witness for C4: fresh client with an open socket, handshake byte 0x00,
then audio; trace of non-handshake events only. -/
theorem C4_handshake_gating_witness :
    decodeMessage [0x00] = PersonaPlexMessage.handshake ∧
    ({ PersonaPlexClient.create true 5 1000 with wsOpen := true } : PersonaPlexClient).wsOpen = true ∧
    ((∀ (d : PersonaPlexClient) (a : List Nat), d.isReady = false →
      sendAudio d a = Except.error "Client is not connected") ∧
    sendAudio (handleMessage { PersonaPlexClient.create true 5 1000 with wsOpen := true } [0x00]).1 [7] =
      Except.ok { (handleMessage { PersonaPlexClient.create true 5 1000 with wsOpen := true } [0x00]).1 with
        sentMessages := (handleMessage { PersonaPlexClient.create true 5 1000 with wsOpen := true } [0x00]).1.sentMessages ++
          [encodeAudioMessage [7]] } ∧
    (runClient { ({ PersonaPlexClient.create true 5 1000 with wsOpen := true } : PersonaPlexClient) with
        sentMessages := [] } [ClientEvent.wsOpenEvt, ClientEvent.sendAudioCall [9],
          ClientEvent.wsMessageEvt [0x01, 3]]).sentMessages = []) := by
  refine ⟨rfl, rfl, ?_⟩
  apply C4_handshake_gating _ [0x00] [7] _ rfl rfl rfl
  intro e he
  simp only [List.mem_cons, List.not_mem_nil, or_false] at he
  rcases he with rfl | rfl | rfl
  · exact not_false
  · exact not_false
  · show ¬ (decodeMessage [0x01, 3] = PersonaPlexMessage.handshake)
    decide

/-! ## Session orchestrator (`src/voice-bot.ts`)

The state relevant to shutdown: the `isSessionActive` flag, whether the
engine client and the Opus codec are still held (released by `cleanup`),
and a ghost count of emitted `ended` events. -/

structure VoiceBotState where
  isSessionActive : Bool
  hasClient : Bool
  hasCodec : Bool
  endedEmitted : Nat
deriving DecidableEq, Repr

/-- `new VoiceBot(config)`: no session, no client, codec allocated. -/
def VoiceBotState.createBot : VoiceBotState :=
  ⟨false, false, true, 0⟩

/-- `cleanup`: close and drop the engine client, free the codec. -/
def VoiceBotState.cleanup (b : VoiceBotState) : VoiceBotState :=
  { b with hasClient := false, hasCodec := false }

/-- `endSession`: early return when no session is active; otherwise
deactivate, clean up, and emit `ended` once. -/
def VoiceBotState.endSession (b : VoiceBotState) : VoiceBotState :=
  if b.isSessionActive = false then b
  else
    { b.cleanup with isSessionActive := false, endedEmitted := b.endedEmitted + 1 }

/-- The client `disconnected` handler installed by `startSession`: emits
`ended` only while the session is still active. -/
def VoiceBotState.onDisconnected (b : VoiceBotState) : VoiceBotState :=
  if b.isSessionActive = true then
    { b with isSessionActive := false, endedEmitted := b.endedEmitted + 1 }
  else b

/-- C8: on an active session, calling `endSession` twice emits `ended`
exactly once — the second call returns without error and changes nothing —
and `endSession` on a never-started bot is a no-op. -/
theorem C8_idempotent_shutdown (b : VoiceBotState) (hactive : b.isSessionActive = true) :
    (b.endSession.endSession).endedEmitted = b.endedEmitted + 1 ∧
    b.endSession.endSession = b.endSession ∧
    VoiceBotState.createBot.endSession = VoiceBotState.createBot := by
  have h1 : b.endSession =
      { b.cleanup with isSessionActive := false, endedEmitted := b.endedEmitted + 1 } := by
    rw [VoiceBotState.endSession, if_neg (by rw [hactive]; exact fun h => Bool.noConfusion h)]
  have h2 : b.endSession.endSession = b.endSession := by
    rw [h1, VoiceBotState.endSession, if_pos rfl]
  refine ⟨?_, h2, rfl⟩
  rw [h2, h1]

/-- Witness for C8 on a bot with a live session. -/
theorem C8_idempotent_shutdown_witness :
    ((⟨true, true, true, 0⟩ : VoiceBotState).endSession.endSession).endedEmitted = 0 + 1 ∧
    (⟨true, true, true, 0⟩ : VoiceBotState).endSession.endSession =
      (⟨true, true, true, 0⟩ : VoiceBotState).endSession ∧
    VoiceBotState.createBot.endSession = VoiceBotState.createBot :=
  C8_idempotent_shutdown ⟨true, true, true, 0⟩ rfl

/-! ## Telephony leg handler (`src/twilio/media-streams.ts`)

`media.payload` is carried as its base64-decoded bytes (the transport
base64 decoding is element-wise and does not affect any dispatch decision);
the truthiness guard `if (message.media?.payload)` corresponds to the
payload being present and nonempty. -/

/-- JS `parseInt(s, 10)`: skip leading whitespace, optional sign, then the
longest prefix of decimal digits; `NaN` (modelled `none`) if there is none. -/
def parseIntJS (s : String) : Option Int :=
  let cs := s.data.dropWhile (fun ch => ch = ' ' ∨ ch = '\t' ∨ ch = '\n' ∨ ch = '\r')
  let signAndRest : Int × List Char :=
    match cs with
    | '-' :: rest => (-1, rest)
    | '+' :: rest => (1, rest)
    | _ => (1, cs)
  let digits := signAndRest.2.takeWhile Char.isDigit
  if digits.isEmpty then none
  else some (signAndRest.1 *
    (digits.foldl (fun acc ch => acc * 10 + (ch.toNat - 48)) 0 : Nat))

/-- The timestamp computation in `handleMediaPayload`:
`parseInt(timestamp, 10) || Date.now()` — the wall clock (`now`) is used
when the parse is `NaN` *or* when it yields the falsy value 0. -/
def mediaTimestamp (timestamp : String) (now : Int) : Int :=
  match parseIntJS timestamp with
  | none => now
  | some v => if v = 0 then now else v

/-- `handleMediaPayload`: mu-law decode the payload bytes to a normalized
frame and pair it with the parsed-or-wall-clock timestamp. -/
def handleMediaPayload (payload : List Nat) (timestamp : String) (now : Int) :
    List ℚ × Int :=
  (mulawToPcm payload, mediaTimestamp timestamp now)

structure TwilioStartInfo where
  streamSid : String
  callSid : String
deriving DecidableEq, Repr

structure TwilioMediaInfo where
  payload : List Nat
  timestamp : String
deriving DecidableEq, Repr

structure TwilioDtmfInfo where
  digit : String
deriving DecidableEq, Repr

/-- An incoming Twilio message: the `event` discriminator plus the optional
per-event bodies used by `handleMessage`. -/
structure TwilioMediaMessage where
  event : String
  start : Option TwilioStartInfo
  media : Option TwilioMediaInfo
  dtmf : Option TwilioDtmfInfo
deriving DecidableEq, Repr

/-- `TwilioMediaHandler` state: nullable stream/call ids and the outbound
media sequence counter. -/
structure TwilioMediaHandler where
  streamSid : Option String
  callSid : Option String
  mediaSequence : Nat
deriving DecidableEq, Repr

/-- A fresh handler. -/
def TwilioMediaHandler.createHandler : TwilioMediaHandler :=
  ⟨none, none, 0⟩

/-- `isActive := streamSid !== null`. -/
def TwilioMediaHandler.isActive (h : TwilioMediaHandler) : Bool :=
  h.streamSid.isSome

/-- Events emitted by the handler. -/
inductive TwilioEmit where
  | connected
  | start (streamSid callSid : String)
  | audio (pcm : List ℚ) (timestamp : Int)
  | stop
  | dtmf (digit : String)
deriving DecidableEq, Repr

/-- `TwilioMediaHandler.handleMessage`: the `switch (message.event)` from the
source; unknown events fall through silently; each guarded branch checks the
presence (and truthiness) of its body before acting. -/
def TwilioMediaHandler.handleMessage (h : TwilioMediaHandler)
    (msg : TwilioMediaMessage) (now : Int) : TwilioMediaHandler × List TwilioEmit :=
  if msg.event = "connected" then (h, [.connected])
  else if msg.event = "start" then
    match msg.start with
    | some st =>
      ({ h with streamSid := some st.streamSid, callSid := some st.callSid },
        [.start st.streamSid st.callSid])
    | none => (h, [])
  else if msg.event = "media" then
    match msg.media with
    | some m =>
      if m.payload ≠ [] then
        (h, [.audio (handleMediaPayload m.payload m.timestamp now).1
          (handleMediaPayload m.payload m.timestamp now).2])
      else (h, [])
    | none => (h, [])
  else if msg.event = "stop" then
    ({ h with streamSid := none, callSid := none }, [.stop])
  else if msg.event = "dtmf" then
    match msg.dtmf with
    | some d => if d.digit ≠ "" then (h, [.dtmf d.digit]) else (h, [])
    | none => (h, [])
  else (h, [])

example : parseIntJS "160" = some 160 := by decide
example : parseIntJS "abc" = none := by decide
example : parseIntJS "-42" = some (-42) := by decide
example : parseIntJS "0" = some 0 := by decide
example : mediaTimestamp "160" 999 = 160 := by decide
example : mediaTimestamp "abc" 999 = 999 := by decide

/-- Counterexample to C9 as stated: the timestamp string `"0"` parses
successfully to the integer 0, yet the emitted timestamp is the wall clock
(12345), not the parsed 0 — `parseInt(t,10) || Date.now()` also replaces the
falsy successful parse 0. -/
theorem C9_counterexample :
    parseIntJS "0" = some 0 ∧
    (handleMediaPayload [0xFF] "0" 12345).2 = 12345 ∧ (12345 : Int) ≠ 0 := by
  refine ⟨by decide, by decide, by norm_num⟩

/-- C9 (amended): a media event with a payload emits one audio event whose
frame is the mu-law decoding of the payload and whose timestamp is the
integer parsed from the message's timestamp field; the wall clock is
substituted when the parse fails *or yields 0* (the falsy-value fallback of
`parseInt(t,10) || Date.now()`). -/
theorem C9_media_timestamp (h : TwilioMediaHandler) (m : TwilioMediaInfo) (now : Int)
    (hne : m.payload ≠ []) :
    (∀ v : Int, parseIntJS m.timestamp = some v → v ≠ 0 →
      h.handleMessage ⟨"media", none, some m, none⟩ now =
        (h, [TwilioEmit.audio (mulawToPcm m.payload) v])) ∧
    ((parseIntJS m.timestamp = none ∨ parseIntJS m.timestamp = some 0) →
      h.handleMessage ⟨"media", none, some m, none⟩ now =
        (h, [TwilioEmit.audio (mulawToPcm m.payload) now])) := by
  have hbranch : h.handleMessage ⟨"media", none, some m, none⟩ now =
      (h, [TwilioEmit.audio (mulawToPcm m.payload) (mediaTimestamp m.timestamp now)]) := by
    rw [TwilioMediaHandler.handleMessage]
    rw [if_neg (by decide : ¬("media" = "connected"))]
    rw [if_neg (by decide : ¬("media" = "start"))]
    rw [if_pos rfl]
    simp only []
    rw [if_pos hne]
    rfl
  constructor
  · intro v hv hv0
    rw [hbranch]
    have : mediaTimestamp m.timestamp now = v := by
      rw [mediaTimestamp, hv]
      simp only []
      rw [if_neg hv0]
    rw [this]
  · intro hfail
    rw [hbranch]
    have : mediaTimestamp m.timestamp now = now := by
      rcases hfail with hn | h0
      · rw [mediaTimestamp, hn]
      · rw [mediaTimestamp, h0]
        simp only []
        rw [if_pos trivial]
    rw [this]

/-- Witness for C9 (amended) on a concrete handler, payload `[0xFF]`,
timestamp `"77"` (and `"0"` for the fallback conjunct). -/
theorem C9_media_timestamp_witness :
    TwilioMediaHandler.handleMessage ⟨some "S", some "C", 0⟩
        ⟨"media", none, some ⟨[0xFF], "77"⟩, none⟩ 5 =
      (⟨some "S", some "C", 0⟩, [TwilioEmit.audio (mulawToPcm [0xFF]) 77]) ∧
    TwilioMediaHandler.handleMessage ⟨some "S", some "C", 0⟩
        ⟨"media", none, some ⟨[0xFF], "0"⟩, none⟩ 5 =
      (⟨some "S", some "C", 0⟩, [TwilioEmit.audio (mulawToPcm [0xFF]) 5]) := by
  constructor
  · exact (C9_media_timestamp ⟨some "S", some "C", 0⟩ ⟨[0xFF], "77"⟩ 5
      (by decide)).1 77 (by decide) (by norm_num)
  · exact (C9_media_timestamp ⟨some "S", some "C", 0⟩ ⟨[0xFF], "0"⟩ 5
      (by decide)).2 (Or.inr (by decide))

/-- C10: a `start` message carrying no `start` object is silently ignored —
the stored `streamSid`/`callSid` are unchanged, no event is emitted, and
`isActive` is unaffected. -/
theorem C10_start_without_body (h : TwilioMediaHandler) (msg : TwilioMediaMessage)
    (now : Int) (hev : msg.event = "start") (hnone : msg.start = none) :
    h.handleMessage msg now = (h, []) ∧
    (h.handleMessage msg now).1.streamSid = h.streamSid ∧
    (h.handleMessage msg now).1.callSid = h.callSid ∧
    (h.handleMessage msg now).1.isActive = h.isActive := by
  have hmain : h.handleMessage msg now = (h, []) := by
    rw [TwilioMediaHandler.handleMessage, hev, hnone]
    rw [if_neg (by decide : ¬("start" = "connected"))]
    rw [if_pos rfl]
  exact ⟨hmain, by rw [hmain], by rw [hmain], by rw [hmain]⟩

/-- Witness for C10: a bodiless start message against a live handler. -/
theorem C10_start_without_body_witness :
    TwilioMediaHandler.handleMessage ⟨some "S", some "C", 3⟩
        ⟨"start", none, none, none⟩ 9 = (⟨some "S", some "C", 3⟩, []) ∧
    (TwilioMediaHandler.handleMessage ⟨some "S", some "C", 3⟩
        ⟨"start", none, none, none⟩ 9).1.streamSid = some "S" ∧
    (TwilioMediaHandler.handleMessage ⟨some "S", some "C", 3⟩
        ⟨"start", none, none, none⟩ 9).1.callSid = some "C" ∧
    (TwilioMediaHandler.handleMessage ⟨some "S", some "C", 3⟩
        ⟨"start", none, none, none⟩ 9).1.isActive =
      TwilioMediaHandler.isActive ⟨some "S", some "C", 3⟩ :=
  C10_start_without_body ⟨some "S", some "C", 3⟩ ⟨"start", none, none, none⟩ 9 rfl rfl

end VoiceBot
